import Mathlib

/-!
Shallow embedding of the multi-agent travel-assistant backend
(`src/app/agents.py`, `src/api/server.py`, `src/app/retriever.py`).

Conventions of the embedding:
- LangChain messages become the closed inductive `Msg` (human / ai / tool);
  `AIMessage.tool_calls` defaults to the empty list, mirrored by the list field.
- Python exceptions that escape a function are modelled with `Except`:
  `Except.error` means the call raised.
- The LLM behind `agent.invoke` and the two concrete tools are external
  effects; they are passed in as oracles (`ModelResult`-valued function,
  `ToolEnv`).  Everything the repository itself computes is translated
  directly from the Python source.
-/

-- ===== Data model (spec section 3, langchain message shapes used by the code) =====

/-- A structured tool invocation request carried by an AIMessage:
the code reads `call.id`, `call.name` and `call.args` (a string map). -/
structure ToolCall where
  id : String
  name : String
  args : List (String × String)
deriving DecidableEq, Repr

/-- Closed variant over the message kinds the code manipulates:
HumanMessage, AIMessage (with its tool_calls list) and ToolMessage. -/
inductive Msg where
  | human (content : String)
  | ai (content : String) (tool_calls : List ToolCall)
  | tool (tool_call_id : String) (content : String)
deriving DecidableEq, Repr

/-- The `.content` attribute every langchain message exposes. -/
def Msg.content : Msg → String
  | .human c => c
  | .ai c _ => c
  | .tool _ c => c

-- ===== Tool dispatch (src/app/agents.py, tool_node) =====

/-- `tool_map` holds exactly the two statically registered tools;
`tool_map[name]` succeeds exactly for these names. -/
def knownTool (name : String) : Bool :=
  name == "pdf_search" || name == "web_search"

/-- Association-list lookup, embedding Python `dict.get` on the
string-to-string arguments mapping of a ToolCall. -/
def lookupArg (args : List (String × String)) (k : String) : Option String :=
  (args.find? (fun p => p.1 == k)).map Prod.snd

/-- Python `str(call.args)` on a dict: the textual form
`\x7b'k1': 'v1', 'k2': 'v2'\x7d`. -/
def pyStrOfArgs (args : List (String × String)) : String :=
  "\x7b" ++
    String.intercalate ", "
      (args.map (fun p => "\x27" ++ p.1 ++ "\x27: \x27" ++ p.2 ++ "\x27")) ++
  "\x7d"

/-- `query = call.args.get("query", call.args.get("__arg1", str(call.args)))`
from tool_node. -/
def extractQuery (args : List (String × String)) : String :=
  match lookupArg args "query" with
  | some v => v
  | none =>
    match lookupArg args "__arg1" with
    | some v => v
    | none => pyStrOfArgs args

/-- Oracle for the two concrete tools: `run name query` is `Except.ok` with the
tool result string, or `Except.error e` when `tool.func(query)` raises an
exception whose text is `e`. -/
structure ToolEnv where
  run : String → String → Except String String

/-- The ToolMessage produced for one known tool call: on success it carries the
tool result, on failure the `f"Tool \x7btool.name\x7d failed: \x7be\x7d"` error string. -/
def toolResult (env : ToolEnv) (c : ToolCall) : Msg :=
  match env.run c.name (extractQuery c.args) with
  | .ok r => Msg.tool c.id r
  | .error e => Msg.tool c.id ("Tool " ++ c.name ++ " failed: " ++ e)

/-- One iteration of the tool_node loop body: `tool_map[call.name]` raises
KeyError (`Except.error ()`) for an unknown name; for a known name the
try/except around `tool.func` always yields a ToolMessage. -/
def execCall (env : ToolEnv) (c : ToolCall) : Except Unit Msg :=
  if knownTool c.name then .ok (toolResult env c) else .error ()

/-- The sequential for-loop over `last_msg.tool_calls`: stops with the
uncaught KeyError at the first unknown tool name, otherwise collects one
output message per call, in call order. -/
def runCalls (env : ToolEnv) : List ToolCall → Except Unit (List Msg)
  | [] => .ok []
  | c :: rest =>
    match execCall env c with
    | .ok m =>
      match runCalls env rest with
      | .ok outs => .ok (m :: outs)
      | .error e => .error e
    | .error e => .error e

/-- tool_node: reads `messages[-1]` (IndexError on empty), takes
`getattr(last_msg, "tool_calls", [])`, resolves every call, then extends the
message list with all outputs at once.  `Except.error` models an uncaught
exception escaping the node. -/
def tool_node (env : ToolEnv) (messages : List Msg) : Except Unit (List Msg) :=
  match messages.getLast? with
  | none => .error ()
  | some last =>
    match runCalls env
        (match last with
         | Msg.ai _ cs => cs
         | _ => []) with
    | .ok outs => .ok (messages ++ outs)
    | .error e => .error e

-- ===== Agent node and router (src/app/agents.py) =====

/-- Outcome of `agent.invoke(\x7b"messages": messages\x7d)`:
`msg m` when it returned a dict whose `messages` list ends in `m`,
`bad` when the result had no usable shape (nothing is appended),
`fail` when the call raised. -/
inductive ModelResult where
  | msg (m : Msg)
  | bad
  | fail
deriving DecidableEq, Repr

/-- The fixed apology content used on model failure. -/
def apologyText : String := "Sorry, I encountered an error. Please try again."

/-- agent_node: invokes the model; appends the resulting AIMessage when there
is one (non-AIMessage results are dropped), and on any exception appends the
apology AIMessage.  Always returns normally. -/
def agent_node (model : List Msg → ModelResult) (messages : List Msg) : List Msg :=
  match model messages with
  | .msg (Msg.ai c calls) => messages ++ [Msg.ai c calls]
  | .msg _ => messages
  | .bad => messages
  | .fail => messages ++ [Msg.ai apologyText []]

/-- router: reads `messages[-1]` (`none` models the IndexError on an empty
list); returns "tools" when the last message is an AIMessage with a non-empty
tool_calls list, otherwise "end" (both the non-empty-content branch and the
fall-through return "end"). -/
def router (messages : List Msg) : Option String :=
  match messages.getLast? with
  | none => none
  | some last =>
    match last with
    | Msg.ai content calls =>
      if !calls.isEmpty then some "tools"
      else if content ≠ "" then some "end" else some "end"
    | _ => some "end"

-- ===== The compiled graph (StateGraph wiring at the bottom of agents.py) =====

/-- The control states of the compiled graph: about to run the agent node,
about to run the tools node, reached END, or an exception escaped. -/
inductive LoopState where
  | awaiting (ms : List Msg)
  | executingTools (ms : List Msg)
  | done (ms : List Msg)
  | crashed
deriving DecidableEq, Repr

/-- One transition of the graph: entry point "agent", conditional edges
from "agent" through router to "tools" or END, unconditional edge
"tools" -> "agent". -/
def step (model : List Msg → ModelResult) (env : ToolEnv) : LoopState → LoopState
  | .awaiting ms =>
    match router (agent_node model ms) with
    | some s =>
      if s = "tools" then .executingTools (agent_node model ms)
      else .done (agent_node model ms)
    | none => .crashed
  | .executingTools ms =>
    match tool_node env ms with
    | .ok ms2 => .awaiting ms2
    | .error _ => .crashed
  | .done ms => .done ms
  | .crashed => .crashed

/-- Fueled execution of the whole graph from the agent node, instrumented with
counts: `some (final, modelInvocations, toolSteps)` on normal END,
`none` when fuel runs out or an exception escapes a node. -/
def runLoop (model : List Msg → ModelResult) (env : ToolEnv) :
    Nat → List Msg → Option (List Msg × Nat × Nat)
  | 0, _ => none
  | Nat.succ fuel, ms =>
    match router (agent_node model ms) with
    | none => none
    | some r =>
      if r = "tools" then
        match tool_node env (agent_node model ms) with
        | .ok ms3 =>
          match runLoop model env fuel ms3 with
          | some (fin, mc, ts) => some (fin, mc + 1, ts + 1)
          | none => none
        | .error _ => none
      else some (agent_node model ms, 1, 0)

/-- `response["messages"][-1].content`, the text the server hands back. -/
def finalText (ms : List Msg) : Option String :=
  ms.getLast?.map Msg.content

-- ===== Server helpers (src/api/server.py) =====

/-- Category label a tool name contributes to sources_used: the if/elif in
determine_sources_used maps pdf_search and web_search and skips other names. -/
def sourceTag (name : String) : Option String :=
  if name == "pdf_search" then some "PDF Documents"
  else if name == "web_search" then some "Web Search"
  else none

/-- The for-loop of determine_sources_used: scan every message of the state;
messages that have a truthy `tool_calls` attribute (AIMessages with a
non-empty list) contribute the category of each of their calls, in order. -/
def sourceTags (ms : List Msg) : List String :=
  ms.foldl
    (fun acc m =>
      match m with
      | Msg.ai _ calls =>
        if calls.isEmpty then acc
        else acc ++ calls.filterMap (fun tc => sourceTag tc.name)
      | _ => acc)
    []

/-- determine_sources_used: collect the category of every ToolCall in the
whole agent state, then `list(set(sources))` to drop duplicates (the set
iteration order is unspecified in Python; we fix one deduplication order and
reason about membership only). -/
def determine_sources_used (ms : List Msg) : List String :=
  (sourceTags ms).dedup

/-- Comparator written from the spec wording for sources_used: scan only the
ToolCalls issued since the last response, i.e. only the messages appended
after the previous turn ended (`priorLen` = length of the state before this
turn began). -/
def specSourcesThisTurn (priorLen : Nat) (finalMs : List Msg) : List String :=
  determine_sources_used (finalMs.drop priorLen)

/-- What the /chat endpoint returns for one turn. -/
structure ChatResult where
  response : String
  sources_used : List String
  agentMessages : List Msg
deriving DecidableEq, Repr

/-- One /chat turn on a resolved session: append the HumanMessage to the
agent state, run the compiled graph to completion, extract
`response["messages"][-1].content`, store the returned state back into the
session, and compute sources_used from that full returned state. -/
def chatTurn (model : List Msg → ModelResult) (env : ToolEnv) (fuel : Nat)
    (agentMs : List Msg) (userText : String) : Option ChatResult :=
  match runLoop model env fuel (agentMs ++ [Msg.human userText]) with
  | some (fin, _, _) =>
    some ⟨(finalText fin).getD "", determine_sources_used fin, fin⟩
  | none => none

-- ===== Sessions (src/api/server.py) =====

/-- One entry of `chat_sessions`: the ChatMessage dicts (role, content), the
agent state, and the bookkeeping fields.  Timestamps are seconds as integers. -/
structure Session where
  messages : List (String × String)
  agentMessages : List Msg
  created_at : Int
  last_activity : Int
  message_count : Nat
deriving DecidableEq, Repr

/-- clear_session: resets the message list, the agent state and the counter
of an existing session. -/
def clear_session (s : Session) : Session :=
  { s with messages := [], agentMessages := [], message_count := 0 }

/-- cleanup_old_sessions: collect every session whose
`(current_time - last_activity).total_seconds() > 24 * 3600`, delete those
from the map, and report how many were removed.  The map is modelled as an
association list from session id to last_activity. -/
def cleanup_old_sessions (now : Int) (sessions : List (String × Int)) :
    List (String × Int) × Nat :=
  (sessions.filter (fun s => decide (¬ now - s.2 > 24 * 3600)),
   (sessions.filter (fun s => decide (now - s.2 > 24 * 3600))).length)

-- ===== Ingestion pipeline (src/app/retriever.py) =====

/-- One bulk action of build_or_load_vectorstore, for counting work:
loading the source directory, splitting, or embedding `n` chunks. -/
inductive IngestOp where
  | load
  | splitStep
  | embed (n : Nat)
deriving DecidableEq, Repr

/-- The queryable content of the Chroma index: the indexed chunks. -/
structure VectorStore where
  chunks : List String
deriving DecidableEq, Repr

/-- The persisted CHROMA_DIR: `none` models a missing or empty directory
(`os.path.exists` false, or `os.listdir` empty); `some db` a populated one.
Building always materialises files in the directory, so a built store is
always `some`. -/
structure ChromaDir where
  store : Option VectorStore
deriving DecidableEq, Repr

/-- build_or_load_vectorstore: when the persisted directory is populated,
open it as-is with no load, split or embed work; otherwise load the
documents, split them, embed every chunk and persist the result.
Returns (directory after, vectorstore handle, work performed). -/
def build_or_load_vectorstore (docs : List String) (split : String → List String)
    (fs : ChromaDir) : ChromaDir × VectorStore × List IngestOp :=
  match fs.store with
  | some db => (fs, db, [])
  | none =>
    (⟨some ⟨(docs.map split).flatten⟩⟩, ⟨(docs.map split).flatten⟩,
     [IngestOp.load, IngestOp.splitStep, IngestOp.embed (docs.map split).flatten.length])

/-- Recursive restatement of the determine_sources_used scan, used to reason
about membership (provably equal to `sourceTags`). -/
def sourceTagsR : List Msg → List String
  | [] => []
  | Msg.ai _ calls :: rest =>
    calls.filterMap (fun tc => sourceTag tc.name) ++ sourceTagsR rest
  | _ :: rest => sourceTagsR rest

-- ===== Helper lemmas =====

theorem agent_node_extends (model : List Msg → ModelResult) (ms : List Msg) :
    ∃ t, agent_node model ms = ms ++ t := by
  cases h : model ms with
  | msg m =>
    cases m with
    | ai c calls => exact ⟨[Msg.ai c calls], by simp [agent_node, h]⟩
    | human c => exact ⟨[], by simp [agent_node, h]⟩
    | tool i c => exact ⟨[], by simp [agent_node, h]⟩
  | bad => exact ⟨[], by simp [agent_node, h]⟩
  | fail => exact ⟨[Msg.ai apologyText []], by simp [agent_node, h]⟩

theorem tool_node_extends (env : ToolEnv) (ms ms2 : List Msg)
    (h : tool_node env ms = Except.ok ms2) : ∃ t, ms2 = ms ++ t := by
  unfold tool_node at h
  cases hl : ms.getLast? with
  | none => rw [hl] at h; simp at h
  | some last =>
    rw [hl] at h
    dsimp only at h
    split at h
    · exact ⟨_, (Except.ok.inj h).symm⟩
    · simp at h

theorem runCalls_eq_map (env : ToolEnv) (calls : List ToolCall)
    (hk : ∀ tc ∈ calls, knownTool tc.name = true) :
    runCalls env calls = Except.ok (calls.map (toolResult env)) := by
  induction calls with
  | nil => rfl
  | cons c cs ih =>
    have hc := hk c (List.mem_cons_self c cs)
    have hcs := ih (fun tc htc => hk tc (List.mem_cons_of_mem c htc))
    simp [runCalls, execCall, hc, hcs]

theorem runCalls_error_of_unknown (env : ToolEnv) (calls : List ToolCall)
    (tc : ToolCall) (htc : tc ∈ calls) (hu : knownTool tc.name = false) :
    runCalls env calls = Except.error () := by
  induction calls with
  | nil => cases htc
  | cons c cs ih =>
    rcases List.mem_cons.mp htc with h | h
    · subst h; simp [runCalls, execCall, hu]
    · cases hE : execCall env c with
      | error e => simp [runCalls, hE]
      | ok m => simp [runCalls, hE, ih h]

theorem tool_node_all_known (env : ToolEnv) (pre : List Msg) (c : String)
    (calls : List ToolCall) (hk : ∀ tc ∈ calls, knownTool tc.name = true) :
    tool_node env (pre ++ [Msg.ai c calls]) =
      Except.ok (pre ++ [Msg.ai c calls] ++ calls.map (toolResult env)) := by
  simp [tool_node, List.getLast?_concat, runCalls_eq_map env calls hk]

-- ===== Claim theorems =====

/-- C1: whenever the model responds with an AIMessage that has no ToolCalls
and non-empty text, the compiled graph terminates with exactly one model
invocation and zero tool steps, and the text the server extracts from the
final state is that response text verbatim. -/
theorem c1_tool_free_single_invocation
    (model : List Msg → ModelResult) (env : ToolEnv) (fuel : Nat)
    (ms : List Msg) (c : String)
    (hm : model ms = ModelResult.msg (Msg.ai c []))
    (_hc : c ≠ "") :
    runLoop model env (fuel + 1) ms = some (ms ++ [Msg.ai c []], 1, 0) ∧
    finalText (ms ++ [Msg.ai c []]) = some c := by
  have h2 : agent_node model ms = ms ++ [Msg.ai c []] := by simp [agent_node, hm]
  refine ⟨?_, ?_⟩
  · simp [runLoop, h2, router, List.getLast?_concat]
  · simp [finalText, List.getLast?_concat, Msg.content]

/-- Witness for C1 at a concrete tool-free model response. -/
theorem c1_witness :
    runLoop (fun _ => ModelResult.msg (Msg.ai "hello" []))
        ⟨fun _ _ => Except.ok "r"⟩ 1 [] = some ([Msg.ai "hello" []], 1, 0) ∧
    finalText [Msg.ai "hello" []] = some "hello" :=
  c1_tool_free_single_invocation
    (fun _ => ModelResult.msg (Msg.ai "hello" [])) ⟨fun _ _ => Except.ok "r"⟩
    0 [] "hello" rfl (by decide)

/-- C2: a model response carrying N ToolCalls (all with registered names, as
the ToolCall data model requires) makes the tools node append exactly N
ToolMessages, in call order, the i-th carrying the i-th call id, and only
then does the graph edge hand the extended state back to the agent node. -/
theorem c2_tool_results_in_order
    (model : List Msg → ModelResult) (env : ToolEnv) (pre : List Msg)
    (c : String) (calls : List ToolCall)
    (_hN : calls ≠ [])
    (hk : ∀ tc ∈ calls, knownTool tc.name = true) :
    tool_node env (pre ++ [Msg.ai c calls]) =
      Except.ok (pre ++ [Msg.ai c calls] ++ calls.map (toolResult env)) ∧
    (calls.map (toolResult env)).length = calls.length ∧
    (∀ (i : Nat) (tc : ToolCall), calls[i]? = some tc →
      ∃ txt, (calls.map (toolResult env))[i]? = some (Msg.tool tc.id txt)) ∧
    step model env (LoopState.executingTools (pre ++ [Msg.ai c calls])) =
      LoopState.awaiting (pre ++ [Msg.ai c calls] ++ calls.map (toolResult env)) := by
  have hok := tool_node_all_known env pre c calls hk
  refine ⟨hok, by simp, ?_, ?_⟩
  · intro i tc hi
    rw [List.getElem?_map, hi]
    cases h : env.run tc.name (extractQuery tc.args) with
    | ok r => exact ⟨r, by simp [toolResult, h]⟩
    | error e =>
      exact ⟨"Tool " ++ tc.name ++ " failed: " ++ e, by simp [toolResult, h]⟩
  · simp [step, hok]

/-- Witness for C2: one pdf_search call produces exactly its ToolMessage. -/
theorem c2_witness :
    tool_node ⟨fun _ _ => Except.ok "r"⟩
        [Msg.ai "" [⟨"id1", "pdf_search", [("query", "q")]⟩]] =
      Except.ok [Msg.ai "" [⟨"id1", "pdf_search", [("query", "q")]⟩],
                 Msg.tool "id1" "r"] := by
  have h := (c2_tool_results_in_order (fun _ => ModelResult.bad)
    ⟨fun _ _ => Except.ok "r"⟩ [] "" [⟨"id1", "pdf_search", [("query", "q")]⟩]
    (by decide) (by decide)).1
  exact h

/-- C3: when the model invocation raises, the agent node appends the fixed
apology AIMessage, the router sends the graph straight to END, the loop
returns normally (the exception is swallowed), and the apology is the text
handed to the caller. -/
theorem c3_model_failure_apology
    (model : List Msg → ModelResult) (env : ToolEnv) (fuel : Nat) (ms : List Msg)
    (hm : model ms = ModelResult.fail) :
    step model env (LoopState.awaiting ms) =
      LoopState.done (ms ++ [Msg.ai apologyText []]) ∧
    runLoop model env (fuel + 1) ms = some (ms ++ [Msg.ai apologyText []], 1, 0) ∧
    finalText (ms ++ [Msg.ai apologyText []]) = some apologyText := by
  have h2 : agent_node model ms = ms ++ [Msg.ai apologyText []] := by
    simp [agent_node, hm]
  refine ⟨?_, ?_, ?_⟩
  · simp [step, h2, router, List.getLast?_concat]
  · simp [runLoop, h2, router, List.getLast?_concat]
  · simp [finalText, List.getLast?_concat, Msg.content]

/-- Witness for C3 with a model oracle that always raises. -/
theorem c3_witness :
    step (fun _ => ModelResult.fail) ⟨fun _ _ => Except.ok "r"⟩
        (LoopState.awaiting [Msg.human "hi"]) =
      LoopState.done [Msg.human "hi", Msg.ai apologyText []] ∧
    runLoop (fun _ => ModelResult.fail) ⟨fun _ _ => Except.ok "r"⟩ 1 [Msg.human "hi"] =
      some ([Msg.human "hi", Msg.ai apologyText []], 1, 0) ∧
    finalText [Msg.human "hi", Msg.ai apologyText []] = some apologyText :=
  c3_model_failure_apology (fun _ => ModelResult.fail) ⟨fun _ _ => Except.ok "r"⟩
    0 [Msg.human "hi"] rfl

/-- C4: when a known tool raises, its slot in the appended outputs is a
ToolMessage whose content names the tool and the failure reason; the tools
node still returns normally (the failure is caught at the dispatch boundary,
never propagated) and the loop continues to the agent node. -/
theorem c4_tool_failure_error_message
    (model : List Msg → ModelResult) (env : ToolEnv) (pre : List Msg)
    (c : String) (calls : List ToolCall) (i : Nat) (tc : ToolCall) (e : String)
    (hk : ∀ t ∈ calls, knownTool t.name = true)
    (hi : calls[i]? = some tc)
    (he : env.run tc.name (extractQuery tc.args) = Except.error e) :
    tool_node env (pre ++ [Msg.ai c calls]) =
      Except.ok (pre ++ [Msg.ai c calls] ++ calls.map (toolResult env)) ∧
    (calls.map (toolResult env))[i]? =
      some (Msg.tool tc.id ("Tool " ++ tc.name ++ " failed: " ++ e)) ∧
    step model env (LoopState.executingTools (pre ++ [Msg.ai c calls])) =
      LoopState.awaiting (pre ++ [Msg.ai c calls] ++ calls.map (toolResult env)) := by
  have hok := tool_node_all_known env pre c calls hk
  refine ⟨hok, ?_, by simp [step, hok]⟩
  rw [List.getElem?_map, hi]
  simp [toolResult, he]

/-- Witness for C4 with a pdf_search tool that raises "boom". -/
theorem c4_witness :
    tool_node ⟨fun _ _ => Except.error "boom"⟩
        [Msg.ai "" [⟨"id1", "pdf_search", [("query", "q")]⟩]] =
      Except.ok
        ([Msg.ai "" [⟨"id1", "pdf_search", [("query", "q")]⟩]] ++
          [⟨"id1", "pdf_search", [("query", "q")]⟩].map
            (toolResult ⟨fun _ _ => Except.error "boom"⟩)) ∧
    ([⟨"id1", "pdf_search", [("query", "q")]⟩].map
        (toolResult ⟨fun _ _ => Except.error "boom"⟩))[0]? =
      some (Msg.tool "id1" ("Tool " ++ "pdf_search" ++ " failed: " ++ "boom")) := by
  have h := c4_tool_failure_error_message (fun _ => ModelResult.bad)
    ⟨fun _ _ => Except.error "boom"⟩ [] ""
    [⟨"id1", "pdf_search", [("query", "q")]⟩] 0
    ⟨"id1", "pdf_search", [("query", "q")]⟩ "boom"
    (by decide) rfl rfl
  exact ⟨h.1, h.2.1⟩

/-- C5: a ToolCall whose name is not one of the two registered tools makes
`tool_map[call.name]` raise KeyError: the tools node ends in an uncaught
exception, with no error ToolResultMessage synthesized and no messages
appended, and the graph crashes rather than continuing. -/
theorem c5_unknown_tool_crashes
    (model : List Msg → ModelResult) (env : ToolEnv) (pre : List Msg)
    (c : String) (calls : List ToolCall) (tc : ToolCall)
    (htc : tc ∈ calls)
    (hu : knownTool tc.name = false) :
    tool_node env (pre ++ [Msg.ai c calls]) = Except.error () ∧
    step model env (LoopState.executingTools (pre ++ [Msg.ai c calls])) =
      LoopState.crashed := by
  have he := runCalls_error_of_unknown env calls tc htc hu
  refine ⟨?_, ?_⟩
  · simp [tool_node, List.getLast?_concat, he]
  · simp [step, tool_node, List.getLast?_concat, he]

/-- Witness for C5 at the unregistered tool name "database_search". -/
theorem c5_witness :
    tool_node ⟨fun _ _ => Except.ok "r"⟩
        [Msg.human "hi", Msg.ai "" [⟨"id1", "database_search", []⟩]] =
      Except.error () ∧
    step (fun _ => ModelResult.bad) ⟨fun _ _ => Except.ok "r"⟩
        (LoopState.executingTools
          [Msg.human "hi", Msg.ai "" [⟨"id1", "database_search", []⟩]]) =
      LoopState.crashed :=
  c5_unknown_tool_crashes (fun _ => ModelResult.bad) ⟨fun _ _ => Except.ok "r"⟩
    [Msg.human "hi"] "" [⟨"id1", "database_search", []⟩]
    ⟨"id1", "database_search", []⟩ (by decide) (by decide)

/-- C6: the query string handed to a dispatched tool follows the fallback
chain of tool_node: the "query" value when present, else the legacy "__arg1"
value, else the stringification of the whole arguments mapping. -/
theorem c6_query_fallback_chain (args : List (String × String)) :
    (∀ v, lookupArg args "query" = some v → extractQuery args = v) ∧
    (lookupArg args "query" = none →
      ∀ w, lookupArg args "__arg1" = some w → extractQuery args = w) ∧
    (lookupArg args "query" = none → lookupArg args "__arg1" = none →
      extractQuery args = pyStrOfArgs args) := by
  refine ⟨?_, ?_, ?_⟩ <;> intros <;> simp [extractQuery, *]

/-- Witness for C6: all three branches of the fallback chain at concrete
argument mappings. -/
theorem c6_witness :
    extractQuery [("query", "q"), ("__arg1", "a")] = "q" ∧
    extractQuery [("__arg1", "a")] = "a" ∧
    extractQuery [("city", "rome")] = pyStrOfArgs [("city", "rome")] :=
  ⟨(c6_query_fallback_chain [("query", "q"), ("__arg1", "a")]).1 "q" rfl,
   (c6_query_fallback_chain [("__arg1", "a")]).2.1 rfl "a" rfl,
   (c6_query_fallback_chain [("city", "rome")]).2.2 rfl rfl⟩

/-- C9: when the persisted index is already populated, build_or_load opens it
with zero load / split / embed work and leaves it untouched; consequently
running the pipeline a second time performs no work and yields the same
directory and the same queryable store as running it once. -/
theorem c9_ingestion_idempotent
    (docs : List String) (split : String → List String)
    (fs : ChromaDir) (db : VectorStore)
    (hpop : fs.store = some db) :
    build_or_load_vectorstore docs split fs = (fs, db, []) ∧
    (∀ fs0 : ChromaDir, ∀ fs1 db1 ops1,
      build_or_load_vectorstore docs split fs0 = (fs1, db1, ops1) →
      build_or_load_vectorstore docs split fs1 = (fs1, db1, [])) := by
  refine ⟨by simp [build_or_load_vectorstore, hpop], ?_⟩
  intro fs0 fs1 db1 ops1 h
  cases hs : fs0.store with
  | some s =>
    simp [build_or_load_vectorstore, hs] at h
    obtain ⟨h1, h2, _⟩ := h
    simp [build_or_load_vectorstore, ← h1, hs, h2]
  | none =>
    simp [build_or_load_vectorstore, hs] at h
    obtain ⟨h1, h2, _⟩ := h
    simp [build_or_load_vectorstore, ← h1, ← h2]

/-- Witness for C9 on a concrete populated index. -/
theorem c9_witness :
    build_or_load_vectorstore ["doc"] (fun d => [d]) ⟨some ⟨["chunk"]⟩⟩ =
      (⟨some ⟨["chunk"]⟩⟩, ⟨["chunk"]⟩, []) :=
  (c9_ingestion_idempotent ["doc"] (fun d => [d]) ⟨some ⟨["chunk"]⟩⟩ ⟨["chunk"]⟩ rfl).1

/-- C10: the sweep removes exactly the sessions strictly older than 24 hours:
every session with age over 24h is removed, every session younger than 24h is
retained, nothing outside the map appears, nothing with age at most 24h is
removed, and the 24h boundary is consistently exclusive (a session of age
exactly 24h0m0s is retained). -/
theorem c10_sweep_removes_only_expired
    (now : Int) (sessions : List (String × Int)) :
    (∀ s ∈ sessions, now - s.2 > 24 * 3600 →
      s ∉ (cleanup_old_sessions now sessions).1) ∧
    (∀ s ∈ sessions, now - s.2 < 24 * 3600 →
      s ∈ (cleanup_old_sessions now sessions).1) ∧
    (∀ s ∈ (cleanup_old_sessions now sessions).1,
      s ∈ sessions ∧ ¬ now - s.2 > 24 * 3600) ∧
    (∀ s ∈ sessions, now - s.2 = 24 * 3600 →
      s ∈ (cleanup_old_sessions now sessions).1) := by
  refine ⟨?_, ?_, ?_, ?_⟩
  · intro s hs hold
    simp only [cleanup_old_sessions, List.mem_filter, decide_eq_true_eq, not_and]
    intro _ hkeep
    omega
  · intro s hs hyoung
    simp only [cleanup_old_sessions, List.mem_filter, decide_eq_true_eq]
    exact ⟨hs, by omega⟩
  · intro s hs
    simp only [cleanup_old_sessions, List.mem_filter, decide_eq_true_eq] at hs
    exact ⟨hs.1, hs.2⟩
  · intro s hs hb
    simp only [cleanup_old_sessions, List.mem_filter, decide_eq_true_eq]
    exact ⟨hs, by omega⟩

/-- Witness for C10: a 100000-second-old session is swept, a fresh one kept. -/
theorem c10_witness :
    ("old", (0 : Int)) ∉
      (cleanup_old_sessions 100000 [("old", 0), ("fresh", 99999)]).1 ∧
    ("fresh", (99999 : Int)) ∈
      (cleanup_old_sessions 100000 [("old", 0), ("fresh", 99999)]).1 :=
  ⟨(c10_sweep_removes_only_expired 100000 [("old", 0), ("fresh", 99999)]).1
      ("old", 0) (by decide) (by decide),
   (c10_sweep_removes_only_expired 100000 [("old", 0), ("fresh", 99999)]).2.1
      ("fresh", 99999) (by decide) (by decide)⟩

theorem sourceTags_foldl (ms : List Msg) : ∀ acc : List String,
    ms.foldl
      (fun acc m =>
        match m with
        | Msg.ai _ calls =>
          if calls.isEmpty then acc
          else acc ++ calls.filterMap (fun tc => sourceTag tc.name)
        | _ => acc)
      acc = acc ++ sourceTagsR ms := by
  induction ms with
  | nil => intro acc; simp [sourceTagsR]
  | cons m rest ih =>
    intro acc
    rw [List.foldl_cons]
    cases m with
    | ai c calls =>
      dsimp only [sourceTagsR]
      rw [ih]
      by_cases hc : calls.isEmpty
      · have hnil : calls = [] := by simpa using hc
        subst hnil
        simp
      · rw [if_neg hc, List.append_assoc]
    | human c =>
      dsimp only [sourceTagsR]
      rw [ih]
    | tool i c =>
      dsimp only [sourceTagsR]
      rw [ih]

theorem sourceTags_eq (ms : List Msg) : sourceTags ms = sourceTagsR ms := by
  unfold sourceTags
  rw [sourceTags_foldl ms []]
  exact List.nil_append _

theorem mem_sourceTagsR (tag : String) (ms : List Msg) :
    tag ∈ sourceTagsR ms ↔
      ∃ c calls tc, Msg.ai c calls ∈ ms ∧ tc ∈ calls ∧
        sourceTag tc.name = some tag := by
  induction ms with
  | nil => simp [sourceTagsR]
  | cons m rest ih =>
    cases m with
    | ai c calls =>
      simp only [sourceTagsR, List.mem_append, List.mem_filterMap, ih,
        List.mem_cons]
      constructor
      · rintro (⟨tc, htc, hs⟩ | ⟨c0, calls0, tc, hmem, htc, hs⟩)
        · exact ⟨c, calls, tc, Or.inl rfl, htc, hs⟩
        · exact ⟨c0, calls0, tc, Or.inr hmem, htc, hs⟩
      · rintro ⟨c0, calls0, tc, hmem | hmem, htc, hs⟩
        · injection hmem with h1 h2
          subst h1; subst h2
          exact Or.inl ⟨tc, htc, hs⟩
        · exact Or.inr ⟨c0, calls0, tc, hmem, htc, hs⟩
    | human c =>
      simp only [sourceTagsR, ih, List.mem_cons]
      constructor
      · rintro ⟨c0, calls0, tc, hmem, htc, hs⟩
        exact ⟨c0, calls0, tc, Or.inr hmem, htc, hs⟩
      · rintro ⟨c0, calls0, tc, hmem | hmem, htc, hs⟩
        · cases hmem
        · exact ⟨c0, calls0, tc, hmem, htc, hs⟩
    | tool i c =>
      simp only [sourceTagsR, ih, List.mem_cons]
      constructor
      · rintro ⟨c0, calls0, tc, hmem, htc, hs⟩
        exact ⟨c0, calls0, tc, Or.inr hmem, htc, hs⟩
      · rintro ⟨c0, calls0, tc, hmem | hmem, htc, hs⟩
        · cases hmem
        · exact ⟨c0, calls0, tc, hmem, htc, hs⟩

theorem mem_determine_sources (tag : String) (ms : List Msg) :
    tag ∈ determine_sources_used ms ↔
      ∃ c calls tc, Msg.ai c calls ∈ ms ∧ tc ∈ calls ∧
        sourceTag tc.name = some tag := by
  rw [determine_sources_used, List.mem_dedup, sourceTags_eq, mem_sourceTagsR]

theorem runLoop_extends (model : List Msg → ModelResult) (env : ToolEnv) :
    ∀ (fuel : Nat) (ms fin : List Msg) (mc ts : Nat),
      runLoop model env fuel ms = some (fin, mc, ts) → ∃ t, fin = ms ++ t := by
  intro fuel
  induction fuel with
  | zero =>
    intro ms fin mc ts h
    simp [runLoop] at h
  | succ n ih =>
    intro ms fin mc ts h
    rw [runLoop] at h
    cases hr : router (agent_node model ms) with
    | none => rw [hr] at h; simp at h
    | some r =>
      rw [hr] at h
      dsimp only at h
      by_cases hrt : r = "tools"
      · rw [if_pos hrt] at h
        cases ht : tool_node env (agent_node model ms) with
        | error e => rw [ht] at h; simp at h
        | ok ms3 =>
          rw [ht] at h
          dsimp only at h
          cases hrl : runLoop model env n ms3 with
          | none => rw [hrl] at h; simp at h
          | some v =>
            rw [hrl] at h
            obtain ⟨fin2, mc2, ts2⟩ := v
            dsimp only at h
            have hP := Option.some.inj h
            have h1 : fin2 = fin := congrArg Prod.fst hP
            obtain ⟨t1, ht1⟩ := agent_node_extends model ms
            obtain ⟨t2, ht2⟩ := tool_node_extends env _ _ ht
            obtain ⟨t3, ht3⟩ := ih ms3 fin2 mc2 ts2 hrl
            refine ⟨t1 ++ t2 ++ t3, ?_⟩
            rw [← h1, ht3, ht2, ht1]
            simp [List.append_assoc]
      · rw [if_neg hrt] at h
        have hP := Option.some.inj h
        have h1 : agent_node model ms = fin := congrArg Prod.fst hP
        obtain ⟨t1, ht1⟩ := agent_node_extends model ms
        exact ⟨t1, by rw [← h1, ht1]⟩

theorem chatTurn_extends (model : List Msg → ModelResult) (env : ToolEnv)
    (fuel : Nat) (agentMs : List Msg) (userText : String) (r : ChatResult)
    (h : chatTurn model env fuel agentMs userText = some r) :
    ∃ t, r.agentMessages = agentMs ++ t := by
  unfold chatTurn at h
  cases hr : runLoop model env fuel (agentMs ++ [Msg.human userText]) with
  | none => rw [hr] at h; simp at h
  | some v =>
    rw [hr] at h
    obtain ⟨fin, mc, ts⟩ := v
    dsimp only at h
    have hrv := Option.some.inj h
    obtain ⟨t, ht⟩ := runLoop_extends model env fuel _ fin mc ts hr
    refine ⟨Msg.human userText :: t, ?_⟩
    rw [← hrv]
    dsimp only
    rw [ht]
    simp

/-- C7 counterexample: a session whose previous turn called pdf_search.  The
new turn is answered directly by the model with no ToolCalls, so by the claim
sources_used should be empty (the spec-side scan of only the messages
appended this turn is indeed []), yet the endpoint reports "PDF Documents",
because determine_sources_used scans the entire accumulated state. -/
theorem c7_counterexample :
    chatTurn (fun _ => ModelResult.msg (Msg.ai "hi" []))
        ⟨fun _ _ => Except.ok "r"⟩ 5
        [Msg.human "a",
         Msg.ai "" [⟨"1", "pdf_search", [("query", "q")]⟩],
         Msg.tool "1" "chunk",
         Msg.ai "ans" []] "b" =
      some (ChatResult.mk "hi" ["PDF Documents"]
        [Msg.human "a",
         Msg.ai "" [⟨"1", "pdf_search", [("query", "q")]⟩],
         Msg.tool "1" "chunk",
         Msg.ai "ans" [],
         Msg.human "b",
         Msg.ai "hi" []]) ∧
    specSourcesThisTurn 4
        [Msg.human "a",
         Msg.ai "" [⟨"1", "pdf_search", [("query", "q")]⟩],
         Msg.tool "1" "chunk",
         Msg.ai "ans" [],
         Msg.human "b",
         Msg.ai "hi" []] = [] := by
  decide

/-- C7 amended: the sources_used list of a chat turn contains exactly the
tool categories whose names appear in ToolCalls anywhere in the whole
accumulated conversation state of the session — all turns, not only those
since the last response. -/
theorem c7_sources_scan_whole_history
    (model : List Msg → ModelResult) (env : ToolEnv) (fuel : Nat)
    (agentMs : List Msg) (userText : String) (r : ChatResult) (tag : String)
    (h : chatTurn model env fuel agentMs userText = some r) :
    tag ∈ r.sources_used ↔
      ∃ c calls tc, Msg.ai c calls ∈ r.agentMessages ∧ tc ∈ calls ∧
        sourceTag tc.name = some tag := by
  unfold chatTurn at h
  cases hr : runLoop model env fuel (agentMs ++ [Msg.human userText]) with
  | none => rw [hr] at h; simp at h
  | some v =>
    rw [hr] at h
    obtain ⟨fin, mc, ts⟩ := v
    dsimp only at h
    rw [← Option.some.inj h]
    dsimp only
    exact mem_determine_sources tag fin

/-- Witness for the amended C7: the pdf_search call of the earlier turn is
what puts "PDF Documents" in this turn's sources_used. -/
theorem c7_amended_witness :
    "PDF Documents" ∈
      (ChatResult.mk "hi" ["PDF Documents"]
        [Msg.human "a",
         Msg.ai "" [⟨"1", "pdf_search", [("query", "q")]⟩],
         Msg.tool "1" "chunk",
         Msg.ai "ans" [],
         Msg.human "b",
         Msg.ai "hi" []]).sources_used :=
  (c7_sources_scan_whole_history (fun _ => ModelResult.msg (Msg.ai "hi" []))
      ⟨fun _ _ => Except.ok "r"⟩ 5
      [Msg.human "a",
       Msg.ai "" [⟨"1", "pdf_search", [("query", "q")]⟩],
       Msg.tool "1" "chunk",
       Msg.ai "ans" []] "b"
      (ChatResult.mk "hi" ["PDF Documents"]
        [Msg.human "a",
         Msg.ai "" [⟨"1", "pdf_search", [("query", "q")]⟩],
         Msg.tool "1" "chunk",
         Msg.ai "ans" [],
         Msg.human "b",
         Msg.ai "hi" []]) "PDF Documents" (by decide)).mpr
    ⟨"", [⟨"1", "pdf_search", [("query", "q")]⟩],
     ⟨"1", "pdf_search", [("query", "q")]⟩, by decide, by decide, rfl⟩

/-- C8 counterexample: clear_session is an operation on a Session that does
not mutate the ConversationState by appending — it deletes every existing
message, so the previous message sequence is not a prefix of the new one. -/
theorem c8_counterexample :
    (clear_session
        (Session.mk [("user", "hi")] [Msg.human "hi"] 0 0 1)).agentMessages = [] ∧
    ¬ ∃ t, (Session.mk [("user", "hi")] [Msg.human "hi"] 0 0 1).agentMessages ++ t =
      (clear_session
        (Session.mk [("user", "hi")] [Msg.human "hi"] 0 0 1)).agentMessages := by
  refine ⟨rfl, ?_⟩
  rintro ⟨t, ht⟩
  simp [clear_session] at ht

/-- C8 amended: every operation on a Session except clear_session mutates the
ConversationState by appending only (the old message sequence is a prefix of
the new one); clear_session instead resets the conversation to empty. -/
theorem c8_append_only_except_clear
    (model : List Msg → ModelResult) (env : ToolEnv) (fuel : Nat)
    (ms : List Msg) (userText : String) (s : Session) :
    (∃ t, agent_node model ms = ms ++ t) ∧
    (∀ ms2, tool_node env ms = Except.ok ms2 → ∃ t, ms2 = ms ++ t) ∧
    (∀ fin mc ts, runLoop model env fuel ms = some (fin, mc, ts) →
      ∃ t, fin = ms ++ t) ∧
    (∀ r, chatTurn model env fuel ms userText = some r →
      ∃ t, r.agentMessages = ms ++ t) ∧
    (clear_session s).agentMessages = [] ∧
    (clear_session s).messages = [] :=
  ⟨agent_node_extends model ms,
   fun ms2 h => tool_node_extends env ms ms2 h,
   fun fin mc ts h => runLoop_extends model env fuel ms fin mc ts h,
   fun r h => chatTurn_extends model env fuel ms userText r h,
   rfl, rfl⟩

/-- Witness for the amended C8: a concrete tool step only appends. -/
theorem c8_amended_witness :
    ∃ t, [Msg.ai "" [⟨"1", "pdf_search", [("query", "q")]⟩], Msg.tool "1" "r"] =
      [Msg.ai "" [⟨"1", "pdf_search", [("query", "q")]⟩]] ++ t :=
  (c8_append_only_except_clear (fun _ => ModelResult.bad)
      ⟨fun _ _ => Except.ok "r"⟩ 1
      [Msg.ai "" [⟨"1", "pdf_search", [("query", "q")]⟩]] "u"
      (Session.mk [] [] 0 0 0)).2.1
    [Msg.ai "" [⟨"1", "pdf_search", [("query", "q")]⟩], Msg.tool "1" "r"]
    rfl
